import Mathlib

/-!
Verification development for the credit-risk serving and retraining core.

The definitions below are a shallow embedding of the Python sources:
  * `backend/services/imputation.py` (`FeatureImputer.impute`,
    `DynamicFeatureMapper.map_to_model_features`, `validate_and_fill`)
  * `backend/models/predictor.py` (`CreditRiskPredictor.predict`:
    probability extraction and risk categorisation; `_load_model`:
    manifest resolution)
  * `backend/api/routes/prediction.py` (`_check_drift`,
    `_store_prediction_to_db`)
  * `backend/services/database_retraining.py` (`DatabaseRetrainer`:
    `check_retraining_readiness`, `prepare_features`, `retrain_model`,
    `_update_manifest`)

Python dictionaries are modelled as insertion-ordered association lists
with Python assignment/lookup semantics; numbers are modelled as `ℚ`;
Python exceptions are modelled with `Except`.  The tree-boosting
estimator, the scaler and the Shapley attribution are opaque
capabilities (per the design, their numerics are out of scope); where a
result depends on them the embedding takes their output as a parameter.
-/

namespace CreditRisk

/-! ## Python value / dict model -/

/-- A Python value as it appears in the request/record dictionaries:
a number (int/float collapsed to `ℚ`), a string, or `None`. -/
inductive PyVal where
  | num (q : ℚ)
  | str (s : String)
  | null
deriving DecidableEq, Repr

/-- A Python dict: insertion-ordered association list with unique-key
semantics enforced by the `dset` operation. -/
abbrev PyDict := List (String × PyVal)

/-- Python `d.get(k)` / `k in d`: first matching key. -/
def dget (d : PyDict) (k : String) : Option PyVal :=
  match d with
  | [] => none
  | (k', v) :: rest => if k' = k then some v else dget rest k

/-- Python `d[k] = v`: replace in place if the key exists, else append. -/
def dset (d : PyDict) (k : String) (v : PyVal) : PyDict :=
  match d with
  | [] => [(k, v)]
  | (k', v') :: rest => if k' = k then (k', v) :: rest else (k', v') :: dset rest k v

/-- The key list of a dict, in insertion order. -/
def dkeys (d : PyDict) : List String := d.map Prod.fst

/-- Python `d.get(k) is None`: true when the key is absent or maps to `None`. -/
def pyGetIsNone (d : PyDict) (k : String) : Bool :=
  match dget d k with
  | none => true
  | some .null => true
  | some _ => false

/-- Python truthiness of a value (`if data[k]:`). -/
def truthy : PyVal → Bool
  | .num q => q ≠ 0
  | .str s => s ≠ ""
  | .null => false

/-- Python `str(v)` as used in f-string interpolation of categorical
values (in the code these are always strings; the numeric rendering is
not relied upon by any claim). -/
def pyStr : PyVal → String
  | .str s => s
  | .num q => toString q
  | .null => "None"

/-- Python `float(v)` used by the drift check; a non-numeric value makes
the conversion fail (the code then skips the field). -/
def toNum? : PyVal → Option ℚ
  | .num q => some q
  | _ => none

/-! ## CreditRiskPredictor.predict: probability extraction and category -/

/-- `CreditRiskPredictor.predict`, probability-extraction part
(predictor.py lines 158–181).  `proba = none` models `predict_proba`
raising; otherwise the list is the first row of the probability output.
Two columns → second entry, one column → first entry, any other length
or an exception → `float(pred)` where `pred` is the raw class label. -/
def extract_probability (proba : Option (List ℚ)) (pred : ℤ) : ℚ :=
  match proba with
  | some [_, p1] => p1
  | some [p0] => p0
  | some _ => (pred : ℚ)
  | none => (pred : ℚ)

/-- `CreditRiskPredictor.predict`, risk-categorisation part
(predictor.py lines 183–192): `prob > flag_threshold` → high,
`prob > 0.4` → borderline, else low. -/
def risk_level (prob : ℚ) (flag_threshold : ℚ) : String :=
  if flag_threshold < prob then "High Risk 🔴"
  else if (2 : ℚ)/5 < prob then "Borderline Risk 🟠"
  else "Low Risk 🟢"

/-! ## _check_drift (prediction.py lines 485–508) -/

/-- Per-field baseline statistics (`FEATURE_STATS[feat]`); any of the
four statistics may be missing from the persisted document. -/
structure FeatureStat where
  minStat : Option ℚ
  maxStat : Option ℚ
  meanStat : Option ℚ
  stdStat : Option ℚ
deriving DecidableEq, Repr

/-- Which branch of `_check_drift` flagged the value. -/
inductive DriftFlag where
  | minmax
  | sigma
deriving DecidableEq, Repr

/-- The `elif mean is not None and std is not None and std >= 0` branch:
flag when the value falls strictly outside `[mean − 3·std, mean + 3·std]`. -/
def sigmaPart (st : FeatureStat) (val : ℚ) : Option DriftFlag :=
  match st.meanStat, st.stdStat with
  | some m, some sd =>
    if 0 ≤ sd then
      (if val < m - 3 * sd ∨ m + 3 * sd < val then some .sigma else none)
    else none
  | _, _ => none

/-- One iteration body of `_check_drift` for a convertible value: the
min/max branch fires when both bounds are present and the value is
strictly outside `[min, max]`; otherwise control falls to the 3-sigma
branch. -/
def drift_check_field (st : FeatureStat) (val : ℚ) : Option DriftFlag :=
  match st.minStat, st.maxStat with
  | some mn, some mx =>
    if val < mn ∨ mx < val then some .minmax else sigmaPart st val
  | _, _ => sigmaPart st val

/-- Whether `_check_drift` appends a warning for this field/value. -/
def drift_flagged (st : FeatureStat) (val : ℚ) : Bool :=
  (drift_check_field st val).isSome

/-- The warning text, keyed by which branch fired (the Python message
also interpolates the numbers; no claim depends on that rendering). -/
def driftMsg (feat : String) : DriftFlag → String
  | .minmax => feat ++ ": value outside training min/max"
  | .sigma => feat ++ ": value outside 3-sigma range"

/-- `_check_drift`: iterate the baseline table, skip fields absent from
the input or not convertible to float, and collect warnings. -/
def check_drift (featureStats : List (String × FeatureStat)) (data : PyDict) :
    List String :=
  featureStats.foldl
    (fun ws fs =>
      match dget data fs.1 with
      | some v =>
        match toNum? v with
        | some val =>
          match drift_check_field fs.2 val with
          | some flag => ws ++ [driftMsg fs.1 flag]
          | none => ws
        | none => ws
      | none => ws)
    []

/-! ## DatabaseRetrainer: readiness check and retraining control flow -/

/-- Constructor arguments of `DatabaseRetrainer`. -/
structure RetrainConfig where
  min_samples : ℕ
  min_feedback_frac : ℚ
deriving DecidableEq, Repr

/-- The database state the readiness check observes: how many
predictions exist and how many carry an `actual_outcome`. -/
structure DbState where
  total_predictions : ℕ
  feedback_count : ℕ
deriving DecidableEq, Repr

/-- Return value of `check_retraining_readiness`. -/
structure Readiness where
  is_ready : Bool
  total_predictions : ℕ
  feedback_count : ℕ
  feedbackFrac : ℚ
  samples_needed : ℕ
  feedback_needed : ℤ
deriving DecidableEq, Repr

/-- `DatabaseRetrainer.check_retraining_readiness`
(database_retraining.py lines 48–81). -/
def check_retraining_readiness (cfg : RetrainConfig) (db : DbState) : Readiness :=
  let total := db.total_predictions
  let feedback := db.feedback_count
  let frac : ℚ := if 0 < total then (feedback : ℚ) / (total : ℚ) else 0
  { is_ready := decide (cfg.min_samples ≤ total) && decide (cfg.min_feedback_frac ≤ frac)
    total_predictions := total
    feedback_count := feedback
    feedbackFrac := frac
    samples_needed := (max 0 ((cfg.min_samples : ℤ) - (total : ℤ))).toNat
    feedback_needed := max 0 (⌊(cfg.min_samples : ℚ) * cfg.min_feedback_frac⌋ - (feedback : ℤ)) }

/-- One manifest entry as written by `_update_manifest`. -/
structure ManifestEntry where
  version : String
  modelPath : String
  scalerPath : String
  featuresPath : String
  timestamp : String
  source : String
deriving DecidableEq, Repr

/-- The on-disk manifest document: absent, a legacy single-entry dict,
or a JSON list of entries. -/
inductive ManifestDoc where
  | entries (es : List ManifestEntry)
  | legacy (e : ManifestEntry)
deriving DecidableEq, Repr

/-- The load step of `_update_manifest` (lines 368–376): a missing file
is an empty list and a legacy dict is wrapped as a one-element list. -/
def loadManifest : Option ManifestDoc → List ManifestEntry
  | none => []
  | some (.legacy e) => [e]
  | some (.entries es) => es

/-- `_update_manifest` (lines 364–393): load, append the new entry,
write back. -/
def update_manifest (doc : Option ManifestDoc) (e : ManifestEntry) :
    List ManifestEntry :=
  loadManifest doc ++ [e]

/-- Manifest resolution in `CreditRiskPredictor._load_model`
(predictor.py lines 32–44): when the document is a non-empty list the
current bundle is `manifest[-1]`; otherwise the legacy fallback paths
are used and no manifest entry is resolved. -/
def resolveCurrent : Option ManifestDoc → Option ManifestEntry
  | some (.entries es) => es.getLast?
  | _ => none

/-- N successive retraining manifest appends starting from a document. -/
def successive_runs (doc : Option ManifestDoc) (es : List ManifestEntry) :
    List ManifestEntry :=
  es.foldl (fun m e => update_manifest (some (.entries m)) e) (loadManifest doc)

/-- Status component of `retrain_model`'s result dictionary. -/
inductive RetrainStatus where
  | insufficient_data
  | success
  | error
deriving DecidableEq, Repr

/-- The observable outcome of a `retrain_model` call: the status, the
manifest after the call, and how many artifact files were written. -/
structure RetrainOutcome where
  status : RetrainStatus
  manifest : List ManifestEntry
  artifactsWritten : ℕ
deriving DecidableEq, Repr

/-- `DatabaseRetrainer.retrain_model` (lines 254–362), control flow.
The opaque fit/metric computation is out of scope (spec §1); `hasData`
abstracts whether `extract_training_data` finds any record (it raises
otherwise, caught upstream as an error result), `newEntry` abstracts
the freshly versioned entry built from the wall clock and the metrics.
The readiness gate is consulted only when `include_original_dataset`
is false (line 273); otherwise training proceeds regardless and, when
`save_model` is set, writes three artifacts and appends one manifest
entry. -/
def retrain_model (cfg : RetrainConfig) (db : DbState)
    (include_original_dataset save_model hasData : Bool)
    (doc : Option ManifestDoc) (newEntry : ManifestEntry) : RetrainOutcome :=
  let readiness := check_retraining_readiness cfg db
  if ¬include_original_dataset ∧ readiness.is_ready = false then
    { status := .insufficient_data, manifest := loadManifest doc, artifactsWritten := 0 }
  else if ¬hasData then
    { status := .error, manifest := loadManifest doc, artifactsWritten := 0 }
  else if save_model then
    { status := .success, manifest := update_manifest doc newEntry, artifactsWritten := 3 }
  else
    { status := .success, manifest := loadManifest doc, artifactsWritten := 0 }

/-! ## FeatureImputer.impute (imputation.py lines 114–181) -/

/-- The reference statistics a `FeatureImputer` may have loaded:
`historical_stats[f]["median"]`, `stats[f]["mean"]` (the latter present
only when the stats file has the field with a `"mean"` key), and
`categorical_modes[f]`. -/
structure ImputerState where
  histMedian : String → Option ℚ
  statsMean : String → Option ℚ
  catMode : String → Option String

/-- The `numeric_defaults` dict of `impute`, in insertion order. -/
def numeric_defaults : List (String × ℚ) :=
  [("person_age", 35), ("person_income", 50000), ("person_emp_length", 24),
   ("loan_amnt", 10000), ("loan_int_rate", 10), ("loan_percent_income", 1/4),
   ("cb_person_cred_hist_length", 5)]

/-- The `categorical_defaults` dict of `impute`, in insertion order. -/
def categorical_defaults : List (String × String) :=
  [("home_ownership", "RENT"), ("loan_intent", "PERSONAL"),
   ("loan_grade", "C"), ("default_on_file", "N")]

/-- Substitution value and log reason for a missing numeric field:
historical median, else training mean, else the safe default. -/
def numFallback (st : ImputerState) (f : String) (dflt : ℚ) : ℚ × String :=
  match st.histMedian f with
  | some m => (m, f ++ ": historical median")
  | none =>
    match st.statsMean f with
    | some m => (m, f ++ ": training mean")
    | none => (dflt, f ++ ": safe default")

/-- Substitution value and log reason for a missing categorical field:
historical mode, else the safe default. -/
def catFallback (st : ImputerState) (f : String) (dflt : String) : String × String :=
  match st.catMode f with
  | some m => (m, f ++ ": historical mode")
  | none => (dflt, f ++ ": safe default")

/-- One iteration of the numeric-imputation loop (lines 144–157):
fields whose `get` is `None` are filled and the action logged. -/
def imputeNumericField (st : ImputerState) (acc : PyDict × List String)
    (fd : String × ℚ) : PyDict × List String :=
  if pyGetIsNone acc.1 fd.1 then
    ((dset acc.1 fd.1 (.num (numFallback st fd.1 fd.2).1)),
      acc.2 ++ [(numFallback st fd.1 fd.2).2])
  else acc

/-- One iteration of the categorical-imputation loop (lines 167–175). -/
def imputeCatField (st : ImputerState) (acc : PyDict × List String)
    (fd : String × String) : PyDict × List String :=
  if pyGetIsNone acc.1 fd.1 then
    ((dset acc.1 fd.1 (.str (catFallback st fd.1 fd.2).1)),
      acc.2 ++ [(catFallback st fd.1 fd.2).2])
  else acc

/-- The log line recorded when the loan-to-income ratio is derived. -/
def derivedMsg : String := "loan_percent_income: derived from loan_amnt/person_income"

/-- The derivation step of `impute` (lines 126–131): when
`loan_percent_income` is missing and both `loan_amnt` and
`person_income` are present and non-`None`, Python evaluates
`person_income > 0` and, when it holds, the division — either raises a
`TypeError` when the operand is not a number (modelled as `.error`). -/
def deriveLPI (data : PyDict) : Except String (PyDict × List String) :=
  if pyGetIsNone data "loan_percent_income" then
    if !pyGetIsNone data "loan_amnt" && !pyGetIsNone data "person_income" then
      match dget data "person_income" with
      | some (.num p) =>
        if 0 < p then
          match dget data "loan_amnt" with
          | some (.num a) =>
            .ok (dset data "loan_percent_income" (.num (a / p)), [derivedMsg])
          | _ => .error "TypeError"
        else .ok (data, [])
      | _ => .error "TypeError"
    else .ok (data, [])
  else .ok (data, [])

/-- `FeatureImputer.impute` (lines 114–181): derivation step, then the
numeric loop, then the categorical loop, returning the filled dict and
the imputation log. -/
def impute (st : ImputerState) (data : PyDict) :
    Except String (PyDict × List String) := do
  let acc1 ← deriveLPI data
  let acc2 := numeric_defaults.foldl (imputeNumericField st) acc1
  let acc3 := categorical_defaults.foldl (imputeCatField st) acc2
  return acc3

/-- The known fields (numeric then categorical) the imputer guarantees. -/
def known_fields : List String :=
  numeric_defaults.map Prod.fst ++ categorical_defaults.map Prod.fst

/-! ## DynamicFeatureMapper (imputation.py lines 184–240) -/

/-- The mapper's `numeric_features` list. -/
def numeric_features : List String :=
  ["person_age", "person_income", "person_emp_length", "loan_amnt",
   "loan_int_rate", "loan_percent_income", "cb_person_cred_hist_length"]

/-- One-hot step of `map_to_model_features`:
`if field in data and data[field]: mapped[pre + str(data[field])] = 1`. -/
def oneHotAdd (data : PyDict) (field : String) (pre : String) (m : PyDict) :
    PyDict :=
  match dget data field with
  | some v => if truthy v then dset m (pre ++ pyStr v) (.num 1) else m
  | none => m

/-- `DynamicFeatureMapper.map_to_model_features` (lines 208–233):
numeric fields copied when present, then the four categorical fields
expanded to indicator columns. -/
def map_to_model_features (data : PyDict) : PyDict :=
  let mapped := numeric_features.foldl
    (fun m f => match dget data f with
      | some v => dset m f v
      | none => m) []
  let mapped := oneHotAdd data "home_ownership" "person_home_ownership_" mapped
  let mapped := oneHotAdd data "loan_intent" "loan_intent_" mapped
  let mapped := oneHotAdd data "loan_grade" "loan_grade_" mapped
  oneHotAdd data "default_on_file" "cb_person_default_on_file_" mapped

/-- `DynamicFeatureMapper.validate_and_fill` (lines 235–240):
`{feat: mapped.get(feat, 0) for feat in expected_features}`. -/
def validate_and_fill (expected_features : List String) (mapped : PyDict) :
    PyDict :=
  expected_features.foldl
    (fun acc f => dset acc f ((dget mapped f).getD (.num 0))) []

/-! ## Target-column exclusion (prediction.py 163–187, database_retraining.py 201–210) -/

/-- The reserved target-column names excluded from features. -/
def target_columns : List String :=
  ["loan_status", "loan_status_num", "default", "target", "label", "outcome"]

/-- `_store_prediction_to_db` (prediction.py lines 163–166): the stored
`input_features` drop every reserved target key. -/
def clean_features (input_features : PyDict) : PyDict :=
  input_features.filter (fun kv => decide (kv.1 ∉ target_columns))

/-- `DatabaseRetrainer.prepare_features` (lines 205–207): the feature
columns kept before encoding drop every reserved target column. -/
def feature_columns (cols : List String) : List String :=
  cols.filter (fun c => decide (c ∉ target_columns))

/-- Well-typedness of one numeric field of a raw application input, as
guaranteed by the `DynamicLoanApplication` schema (`Optional[float]`):
if the key is present its value is `None` or a number. -/
def numericOk (d : PyDict) (f : String) : Prop :=
  ∀ v, dget d f = some v → v = .null ∨ ∃ q, v = .num q

/-! ## Dictionary lemmas -/

lemma dget_dset (d : PyDict) (k k' : String) (v : PyVal) :
    dget (dset d k v) k' = if k = k' then some v else dget d k' := by
  induction d with
  | nil => simp [dset, dget]
  | cons hd tl ih =>
    obtain ⟨k₀, v₀⟩ := hd
    by_cases h₀ : k₀ = k
    · subst h₀
      simp only [dset, if_pos rfl, dget]
      by_cases h₁ : k₀ = k' <;> simp [h₁]
    · simp only [dset, if_neg h₀, dget, ih]
      by_cases h₁ : k₀ = k' <;> by_cases h₂ : k = k' <;> simp_all

lemma dget_append_of_none (d₁ d₂ : PyDict) (k : String)
    (h : dget d₁ k = none) : dget (d₁ ++ d₂) k = dget d₂ k := by
  induction d₁ with
  | nil => rfl
  | cons hd tl ih =>
    obtain ⟨k₀, v₀⟩ := hd
    by_cases h₀ : k₀ = k
    · simp [dget, h₀] at h
    · simp only [dget, if_neg h₀, List.cons_append] at h ⊢
      exact ih h

lemma dset_of_fresh (d : PyDict) (k : String) (v : PyVal)
    (h : dget d k = none) : dset d k v = d ++ [(k, v)] := by
  induction d with
  | nil => rfl
  | cons hd tl ih =>
    obtain ⟨k₀, v₀⟩ := hd
    by_cases h₀ : k₀ = k
    · simp [dget, h₀] at h
    · simp only [dget, if_neg h₀] at h
      simp only [dset, if_neg h₀, List.cons_append, List.cons.injEq, true_and]
      exact ih h

lemma pyGetIsNone_eq_false_iff (d : PyDict) (k : String) :
    pyGetIsNone d k = false ↔ ∃ v, dget d k = some v ∧ v ≠ .null := by
  unfold pyGetIsNone
  cases hv : dget d k with
  | none => simp
  | some v => cases v <;> simp

lemma pyGetIsNone_of_num (d : PyDict) (k : String) (q : ℚ)
    (h : dget d k = some (.num q)) : pyGetIsNone d k = false := by
  unfold pyGetIsNone; rw [h]

lemma pyGetIsNone_congr (d d' : PyDict) (k : String)
    (h : dget d k = dget d' k) : pyGetIsNone d k = pyGetIsNone d' k := by
  unfold pyGetIsNone; rw [h]

/-! ## Claim C3: risk-category thresholds -/

/-- C3: with the default high-risk threshold 0.6, the category is high
exactly when probability > 0.6, borderline exactly when
0.4 < probability ≤ 0.6, and low exactly when probability ≤ 0.4; both
comparisons are strict, so 0.6 falls to borderline, 0.600001 to high
and 0.4 to low. -/
theorem claim_C3 (p : ℚ) :
    (risk_level p (3/5) = "High Risk 🔴" ↔ 3/5 < p) ∧
    (risk_level p (3/5) = "Borderline Risk 🟠" ↔ 2/5 < p ∧ p ≤ 3/5) ∧
    (risk_level p (3/5) = "Low Risk 🟢" ↔ p ≤ 2/5) ∧
    risk_level (3/5) (3/5) = "Borderline Risk 🟠" ∧
    risk_level (600001/1000000) (3/5) = "High Risk 🔴" ∧
    risk_level (2/5) (3/5) = "Low Risk 🟢" := by
  have hs₁ : ("High Risk 🔴" : String) ≠ "Borderline Risk 🟠" := by decide
  have hs₂ : ("High Risk 🔴" : String) ≠ "Low Risk 🟢" := by decide
  have hs₃ : ("Borderline Risk 🟠" : String) ≠ "Low Risk 🟢" := by decide
  refine ⟨?_, ?_, ?_, by norm_num [risk_level], by norm_num [risk_level],
    by norm_num [risk_level]⟩ <;>
  · unfold risk_level
    split_ifs with h₁ h₂ <;> simp_all <;> linarith

/-! ## Claim C9: defensive probability extraction -/

/-- C9: probability extraction returns the second entry of a two-column
probability row, the sole entry of a one-column row, and otherwise (an
unexpected length, or `predict_proba` raising, modelled as `none`) the
raw predicted class label cast to a rational; when the probabilities
lie in [0,1] and the label is 0 or 1, the result lies in [0,1]. -/
theorem claim_C9 :
    (∀ (a b : ℚ) (pred : ℤ), extract_probability (some [a, b]) pred = b) ∧
    (∀ (a : ℚ) (pred : ℤ), extract_probability (some [a]) pred = a) ∧
    (∀ (l : List ℚ) (pred : ℤ), l.length ≠ 1 → l.length ≠ 2 →
      extract_probability (some l) pred = (pred : ℚ)) ∧
    (∀ pred : ℤ, extract_probability none pred = (pred : ℚ)) ∧
    (∀ (proba : Option (List ℚ)) (pred : ℤ),
      (∀ l, proba = some l → ∀ x ∈ l, 0 ≤ x ∧ x ≤ 1) →
      (pred = 0 ∨ pred = 1) →
      0 ≤ extract_probability proba pred ∧ extract_probability proba pred ≤ 1) := by
  refine ⟨fun a b pred => rfl, fun a pred => rfl, ?_, fun pred => rfl, ?_⟩
  · intro l pred h1 h2
    match l with
    | [] => rfl
    | [a] => exact absurd rfl h1
    | [a, b] => exact absurd rfl h2
    | a :: b :: c :: rest => rfl
  · intro proba pred hl hpred
    have hp : (0 : ℚ) ≤ (pred : ℚ) ∧ ((pred : ℚ)) ≤ 1 := by
      rcases hpred with h | h <;> subst h <;> norm_num
    match proba with
    | none => exact hp
    | some [] => exact hp
    | some [a] =>
      have := hl [a] rfl a (by simp)
      exact this
    | some [a, b] =>
      have := hl [a, b] rfl b (by simp)
      exact this
    | some (a :: b :: c :: rest) => exact hp

/-- Witness for C9 at a concrete two-column row and label 1. -/
theorem claim_C9_witness :
    extract_probability (some [(1 : ℚ)/4, 3/4]) 1 = 3/4 ∧
    0 ≤ extract_probability (some [(1 : ℚ)/4, 3/4]) 1 ∧
    extract_probability (some [(1 : ℚ)/4, 3/4]) 1 ≤ 1 := by
  refine ⟨claim_C9.1 (1/4) (3/4) 1, ?_⟩
  refine claim_C9.2.2.2.2 (some [(1 : ℚ)/4, 3/4]) 1 ?_ (Or.inr rfl)
  intro l h x hx
  cases h
  simp only [List.mem_cons, List.not_mem_nil, or_false] at hx
  rcases hx with h | h <;> subst h <;> norm_num

/-! ## Claim C7: readiness arithmetic -/

/-- C7: the readiness check is ready exactly when the total record
count reaches `min_samples` and the feedback ratio reaches
`min_feedback_ratio`, with `samples_needed = max(0, min_samples −
total)`; with 40 records, 1 feedback-labeled, thresholds 100 and 0.1
it reports not ready and 60 samples needed. -/
theorem claim_C7 :
    (∀ (cfg : RetrainConfig) (db : DbState),
      (check_retraining_readiness cfg db).is_ready = true ↔
        (cfg.min_samples ≤ db.total_predictions ∧
          cfg.min_feedback_frac ≤
            (if 0 < db.total_predictions then
              (db.feedback_count : ℚ) / (db.total_predictions : ℚ) else 0))) ∧
    (∀ (cfg : RetrainConfig) (db : DbState),
      ((check_retraining_readiness cfg db).samples_needed : ℤ) =
        max 0 ((cfg.min_samples : ℤ) - (db.total_predictions : ℤ))) ∧
    (check_retraining_readiness ⟨100, 1/10⟩ ⟨40, 1⟩).is_ready = false ∧
    (check_retraining_readiness ⟨100, 1/10⟩ ⟨40, 1⟩).samples_needed = 60 := by
  refine ⟨?_, ?_, by decide, by decide⟩
  · intro cfg db
    simp [check_retraining_readiness]
  · intro cfg db
    simp only [check_retraining_readiness]
    rw [Int.toNat_of_nonneg (le_max_left _ _)]

/-! ## Claim C10: reserved target columns never reach the features -/

lemma dget_filter_out (d : PyDict) (p : String × PyVal → Bool) (k : String)
    (h : ∀ v, p (k, v) = false) : dget (d.filter p) k = none := by
  induction d with
  | nil => rfl
  | cons hd tl ih =>
    obtain ⟨k₀, v₀⟩ := hd
    by_cases h₀ : k₀ = k
    · subst h₀
      simp only [List.filter_cons, h v₀, Bool.false_eq_true, if_neg, ite_false]
      exact ih
    · by_cases hp : p (k₀, v₀) <;>
        simp only [List.filter_cons, hp, if_true, if_false, dget, h₀, ite_false,
          reduceIte] <;> exact ih

/-- C10: a reserved target-column key is absent from the stored
`input_features` of every prediction record, and the retraining
feature-preparation step removes it from the columns kept before
encoding. -/
theorem claim_C10 :
    (∀ (input_features : PyDict) (k : String), k ∈ target_columns →
      dget (clean_features input_features) k = none) ∧
    (∀ (cols : List String) (k : String), k ∈ target_columns →
      k ∉ feature_columns cols) := by
  constructor
  · intro input k hk
    refine dget_filter_out _ _ _ (fun v => ?_)
    simp [hk]
  · intro cols k hk
    simp [feature_columns, hk]

/-- Witness for C10: `loan_status` is scrubbed from a concrete stored
record and from a concrete column list. -/
theorem claim_C10_witness :
    dget (clean_features
        [("loan_status", .num 1), ("person_age", .num 30)]) "loan_status" = none ∧
    "loan_status" ∉ feature_columns ["loan_status", "person_age"] :=
  ⟨claim_C10.1 [("loan_status", .num 1), ("person_age", .num 30)] "loan_status"
      (by decide),
    claim_C10.2 ["loan_status", "person_age"] "loan_status" (by decide)⟩

/-! ## Claim C1: the retraining readiness gate -/

/-- C1 counterexample: with 40 records and 1 feedback entry (not ready
for thresholds 100 / 0.1), a `retrain_model` call with the default
`include_original_dataset=True` does NOT refuse: it reports success,
appends a manifest entry and writes artifacts — refuting the claim
that every not-ready state is refused with no mutation. -/
theorem claim_C1_counterexample :
    (check_retraining_readiness ⟨100, 1/10⟩ ⟨40, 1⟩).is_ready = false ∧
    (retrain_model ⟨100, 1/10⟩ ⟨40, 1⟩ true true true none
        ⟨"v1", "m.pkl", "s.pkl", "f.json", "t0", "database_retraining"⟩).status =
      .success ∧
    (retrain_model ⟨100, 1/10⟩ ⟨40, 1⟩ true true true none
        ⟨"v1", "m.pkl", "s.pkl", "f.json", "t0", "database_retraining"⟩).manifest =
      [⟨"v1", "m.pkl", "s.pkl", "f.json", "t0", "database_retraining"⟩] ∧
    (retrain_model ⟨100, 1/10⟩ ⟨40, 1⟩ true true true none
        ⟨"v1", "m.pkl", "s.pkl", "f.json", "t0", "database_retraining"⟩).artifactsWritten =
      3 := by
  decide

/-- C1 (amended): when `include_original_dataset` is false a retraining
run on a not-ready database state refuses with the insufficient-data
result, leaves the manifest unchanged and writes no artifact; when
`include_original_dataset` is true (the default) the readiness gate is
bypassed, and the same not-ready state still trains, reports success
and appends one manifest entry. -/
theorem claim_C1 (cfg : RetrainConfig) (db : DbState)
    (doc : Option ManifestDoc) (e : ManifestEntry)
    (h : (check_retraining_readiness cfg db).is_ready = false) :
    (∀ save_model hasData,
      retrain_model cfg db false save_model hasData doc e =
        ⟨.insufficient_data, loadManifest doc, 0⟩) ∧
    retrain_model cfg db true true true doc e =
      ⟨.success, loadManifest doc ++ [e], 3⟩ := by
  constructor
  · intro save_model hasData
    simp [retrain_model, h]
  · simp [retrain_model, h, update_manifest]

/-- Witness for C1 at the not-ready state 40 records / 1 feedback. -/
theorem claim_C1_witness :
    retrain_model ⟨100, 1/10⟩ ⟨40, 1⟩ false true true none
        ⟨"v1", "m.pkl", "s.pkl", "f.json", "t0", "database_retraining"⟩ =
      ⟨.insufficient_data, [], 0⟩ ∧
    retrain_model ⟨100, 1/10⟩ ⟨40, 1⟩ true true true none
        ⟨"v1", "m.pkl", "s.pkl", "f.json", "t0", "database_retraining"⟩ =
      ⟨.success, [⟨"v1", "m.pkl", "s.pkl", "f.json", "t0", "database_retraining"⟩], 3⟩ :=
  ⟨(claim_C1 ⟨100, 1/10⟩ ⟨40, 1⟩ none _ (by decide)).1 true true,
    (claim_C1 ⟨100, 1/10⟩ ⟨40, 1⟩ none _ (by decide)).2⟩

/-! ## Claim C6: drift-flag boundaries -/

/-- C6 counterexample: for the baseline `{min 0, max 10, mean 9, std 1}`
the value 0 equals the baseline minimum yet IS flagged — the min/max
branch lets it through, but the 3-sigma branch then fires (0 < 9 − 3) —
refuting "a value exactly equal to the baseline's min or max is never
flagged". -/
theorem claim_C6_counterexample :
    (FeatureStat.mk (some 0) (some 10) (some 9) (some 1)).minStat = some 0 ∧
    drift_flagged ⟨some 0, some 10, some 9, some 1⟩ 0 = true ∧
    drift_check_field ⟨some 0, some 10, some 9, some 1⟩ 0 = some .sigma := by
  refine ⟨rfl, ?_, ?_⟩
  · unfold drift_flagged drift_check_field sigmaPart
    norm_num
  · unfold drift_check_field sigmaPart
    norm_num

/-- C6 (amended): with all four baseline statistics present and a
non-negative std, a value is flagged exactly when it is strictly
outside [min, max], or inside [min, max] but strictly outside
[mean − 3·std, mean + 3·std]; a value equal to min or max is never
flagged by the min/max branch (when min ≤ max) and is flagged only if
the 3-sigma branch fires; a value one unit below min is always
flagged. In a one-field baseline table the warning list for that field
reflects exactly this per-field decision. -/
theorem claim_C6 (mn mx m sd val : ℚ) (hsd : 0 ≤ sd) :
    (drift_flagged ⟨some mn, some mx, some m, some sd⟩ val = true ↔
      ((val < mn ∨ mx < val) ∨
        ((mn ≤ val ∧ val ≤ mx) ∧ (val < m - 3 * sd ∨ m + 3 * sd < val)))) ∧
    (drift_check_field ⟨some mn, some mx, some m, some sd⟩ val = some .minmax ↔
      (val < mn ∨ mx < val)) ∧
    (mn ≤ mx →
      ((drift_flagged ⟨some mn, some mx, some m, some sd⟩ mn = true ↔
          (mn < m - 3 * sd ∨ m + 3 * sd < mn)) ∧
        (drift_flagged ⟨some mn, some mx, some m, some sd⟩ mx = true ↔
          (mx < m - 3 * sd ∨ m + 3 * sd < mx)))) ∧
    drift_flagged ⟨some mn, some mx, some m, some sd⟩ (mn - 1) = true ∧
    (∀ feat : String,
      check_drift [(feat, ⟨some mn, some mx, some m, some sd⟩)] [(feat, .num val)] =
        match drift_check_field ⟨some mn, some mx, some m, some sd⟩ val with
        | some flag => [driftMsg feat flag]
        | none => []) := by
  have hfield : ∀ w : ℚ,
      drift_check_field ⟨some mn, some mx, some m, some sd⟩ w =
        if w < mn ∨ mx < w then some .minmax
        else if w < m - 3 * sd ∨ m + 3 * sd < w then some .sigma
        else none := by
    intro w
    simp only [drift_check_field, sigmaPart, hsd, if_true]
  refine ⟨?_, ?_, ?_, ?_, ?_⟩
  · unfold drift_flagged
    rw [hfield]
    by_cases h₁ : val < mn ∨ mx < val
    · rw [if_pos h₁]
      simp only [Option.isSome_some, true_iff]
      exact Or.inl h₁
    · rw [if_neg h₁]
      push_neg at h₁
      by_cases h₂ : val < m - 3 * sd ∨ m + 3 * sd < val
      · rw [if_pos h₂]
        simp only [Option.isSome_some, true_iff]
        exact Or.inr ⟨⟨h₁.1, h₁.2⟩, h₂⟩
      · rw [if_neg h₂]
        push_neg at h₂
        simp only [Option.isSome_none, Bool.false_eq_true, false_iff]
        rintro ((h | h) | ⟨_, (h | h)⟩)
        · exact absurd h (not_lt.mpr h₁.1)
        · exact absurd h (not_lt.mpr h₁.2)
        · exact absurd h (not_lt.mpr h₂.1)
        · exact absurd h (not_lt.mpr h₂.2)
  · rw [hfield]
    by_cases h₁ : val < mn ∨ mx < val
    · rw [if_pos h₁]
      simp [h₁]
    · rw [if_neg h₁]
      by_cases h₂ : val < m - 3 * sd ∨ m + 3 * sd < val
      · rw [if_pos h₂]
        simp [h₁]
      · rw [if_neg h₂]
        simp [h₁]
  · intro hmm
    constructor
    · unfold drift_flagged
      rw [hfield]
      have h₁ : ¬(mn < mn ∨ mx < mn) := by push_neg; exact ⟨le_refl mn, hmm⟩
      rw [if_neg h₁]
      by_cases h₂ : mn < m - 3 * sd ∨ m + 3 * sd < mn
      · rw [if_pos h₂]; simp [h₂]
      · rw [if_neg h₂]; simp [h₂]
    · unfold drift_flagged
      rw [hfield]
      have h₁ : ¬(mx < mn ∨ mx < mx) := by push_neg; exact ⟨hmm, le_refl mx⟩
      rw [if_neg h₁]
      by_cases h₂ : mx < m - 3 * sd ∨ m + 3 * sd < mx
      · rw [if_pos h₂]; simp [h₂]
      · rw [if_neg h₂]; simp [h₂]
  · unfold drift_flagged
    rw [hfield]
    have h₁ : mn - 1 < mn := by linarith
    rw [if_pos (Or.inl h₁)]
    rfl
  · intro feat
    have hd : dget [(feat, PyVal.num val)] feat = some (.num val) := by
      simp [dget]
    simp only [check_drift, List.foldl_cons, List.foldl_nil, hd, toNum?,
      List.nil_append]

/-- Witness for C6 at baseline `{min 0, max 10, mean 5, std 1}` and
value 11 (strictly above max, flagged by the min/max branch). -/
theorem claim_C6_witness :
    drift_flagged ⟨some 0, some 10, some 5, some 1⟩ 11 = true := by
  have h := (claim_C6 0 10 5 1 11 (by norm_num)).1
  rw [h]
  norm_num

/-! ## Claim C8: append-only manifest and last-entry resolution -/

lemma successive_runs_eq (doc : Option ManifestDoc) (es : List ManifestEntry) :
    successive_runs doc es = loadManifest doc ++ es := by
  unfold successive_runs
  suffices h : ∀ (es : List ManifestEntry) (init : List ManifestEntry),
      es.foldl (fun m e => update_manifest (some (.entries m)) e) init =
        init ++ es by
    exact h es (loadManifest doc)
  intro es
  induction es with
  | nil => intro init; simp
  | cons e rest ih =>
    intro init
    simp only [List.foldl_cons]
    rw [ih]
    simp [update_manifest, loadManifest]

/-- C8: every successful retraining run appends exactly one manifest
entry, preserving all existing entries in order; after N runs the
manifest grows by exactly N entries; the loader resolves the current
bundle as the last (most recently appended) entry. -/
theorem claim_C8 :
    (∀ (doc : Option ManifestDoc) (e : ManifestEntry),
      (update_manifest doc e).length = (loadManifest doc).length + 1 ∧
      update_manifest doc e = loadManifest doc ++ [e] ∧
      resolveCurrent (some (.entries (update_manifest doc e))) = some e) ∧
    (∀ (doc : Option ManifestDoc) (es : List ManifestEntry),
      (successive_runs doc es).length = (loadManifest doc).length + es.length ∧
      successive_runs doc es = loadManifest doc ++ es) ∧
    (∀ (doc : Option ManifestDoc) (es : List ManifestEntry), es ≠ [] →
      resolveCurrent (some (.entries (successive_runs doc es))) = es.getLast?) := by
  refine ⟨?_, ?_, ?_⟩
  · intro doc e
    refine ⟨by simp [update_manifest], rfl, ?_⟩
    simp [resolveCurrent, update_manifest]
  · intro doc es
    rw [successive_runs_eq]
    simp
  · intro doc es hne
    rw [successive_runs_eq]
    simp only [resolveCurrent]
    exact List.getLast?_append_of_ne_nil _ hne

/-- Witness for C8: two successive runs on an initially legacy manifest
resolve to the second appended entry and grow the list to 3. -/
theorem claim_C8_witness :
    resolveCurrent (some (.entries (successive_runs
        (some (.legacy ⟨"v0", "m0", "s0", "f0", "t0", "legacy"⟩))
        [⟨"v1", "m1", "s1", "f1", "t1", "database_retraining"⟩,
         ⟨"v2", "m2", "s2", "f2", "t2", "database_retraining"⟩]))) =
      some ⟨"v2", "m2", "s2", "f2", "t2", "database_retraining"⟩ ∧
    (successive_runs (some (.legacy ⟨"v0", "m0", "s0", "f0", "t0", "legacy"⟩))
        [⟨"v1", "m1", "s1", "f1", "t1", "database_retraining"⟩,
         ⟨"v2", "m2", "s2", "f2", "t2", "database_retraining"⟩]).length = 3 := by
  constructor
  · rw [claim_C8.2.2 _ _ (by decide)]
    decide
  · rw [(claim_C8.2.1 (some (.legacy ⟨"v0", "m0", "s0", "f0", "t0", "legacy"⟩))
      [⟨"v1", "m1", "s1", "f1", "t1", "database_retraining"⟩,
       ⟨"v2", "m2", "s2", "f2", "t2", "database_retraining"⟩]).1]
    decide

/-! ## Imputer fold lemmas -/

lemma imputeNumericField_skip (st : ImputerState) (acc : PyDict × List String)
    (fd : String × ℚ) (h : pyGetIsNone acc.1 fd.1 = false) :
    imputeNumericField st acc fd = acc := by
  unfold imputeNumericField
  simp [h]

lemma imputeCatField_skip (st : ImputerState) (acc : PyDict × List String)
    (fd : String × String) (h : pyGetIsNone acc.1 fd.1 = false) :
    imputeCatField st acc fd = acc := by
  unfold imputeCatField
  simp [h]

lemma foldl_num_skip (st : ImputerState) (fds : List (String × ℚ))
    (acc : PyDict × List String)
    (h : ∀ fd ∈ fds, pyGetIsNone acc.1 fd.1 = false) :
    fds.foldl (imputeNumericField st) acc = acc := by
  induction fds with
  | nil => rfl
  | cons fd rest ih =>
    rw [List.foldl_cons, imputeNumericField_skip st acc fd (h fd (by simp))]
    exact ih fun g hg => h g (List.mem_cons_of_mem _ hg)

lemma foldl_cat_skip (st : ImputerState) (fds : List (String × String))
    (acc : PyDict × List String)
    (h : ∀ fd ∈ fds, pyGetIsNone acc.1 fd.1 = false) :
    fds.foldl (imputeCatField st) acc = acc := by
  induction fds with
  | nil => rfl
  | cons fd rest ih =>
    rw [List.foldl_cons, imputeCatField_skip st acc fd (h fd (by simp))]
    exact ih fun g hg => h g (List.mem_cons_of_mem _ hg)

lemma imputeNumericField_fst_dget (st : ImputerState)
    (acc : PyDict × List String) (fd : String × ℚ) (k : String)
    (h : fd.1 ≠ k) :
    dget (imputeNumericField st acc fd).1 k = dget acc.1 k := by
  unfold imputeNumericField
  split
  · simp [dget_dset, h]
  · rfl

lemma imputeCatField_fst_dget (st : ImputerState)
    (acc : PyDict × List String) (fd : String × String) (k : String)
    (h : fd.1 ≠ k) :
    dget (imputeCatField st acc fd).1 k = dget acc.1 k := by
  unfold imputeCatField
  split
  · simp [dget_dset, h]
  · rfl

lemma foldl_num_dget (st : ImputerState) (fds : List (String × ℚ))
    (acc : PyDict × List String) (k : String)
    (h : ∀ fd ∈ fds, fd.1 ≠ k) :
    dget (fds.foldl (imputeNumericField st) acc).1 k = dget acc.1 k := by
  induction fds generalizing acc with
  | nil => rfl
  | cons fd rest ih =>
    rw [List.foldl_cons, ih _ fun g hg => h g (List.mem_cons_of_mem _ hg)]
    exact imputeNumericField_fst_dget st acc fd k (h fd (by simp))

lemma foldl_cat_dget (st : ImputerState) (fds : List (String × String))
    (acc : PyDict × List String) (k : String)
    (h : ∀ fd ∈ fds, fd.1 ≠ k) :
    dget (fds.foldl (imputeCatField st) acc).1 k = dget acc.1 k := by
  induction fds generalizing acc with
  | nil => rfl
  | cons fd rest ih =>
    rw [List.foldl_cons, ih _ fun g hg => h g (List.mem_cons_of_mem _ hg)]
    exact imputeCatField_fst_dget st acc fd k (h fd (by simp))

lemma foldl_num_snd (st : ImputerState) (fds : List (String × ℚ))
    (acc : PyDict × List String) :
    ∃ t, (fds.foldl (imputeNumericField st) acc).2 = acc.2 ++ t := by
  induction fds generalizing acc with
  | nil => exact ⟨[], by simp⟩
  | cons fd rest ih =>
    rw [List.foldl_cons]
    obtain ⟨t, ht⟩ := ih (imputeNumericField st acc fd)
    unfold imputeNumericField at ht ⊢
    by_cases h : pyGetIsNone acc.1 fd.1 = true
    · simp only [h, if_true] at ht ⊢
      exact ⟨(numFallback st fd.1 fd.2).2 :: t, by rw [ht]; simp⟩
    · simp only [h] at ht ⊢
      exact ⟨t, ht⟩

lemma foldl_cat_snd (st : ImputerState) (fds : List (String × String))
    (acc : PyDict × List String) :
    ∃ t, (fds.foldl (imputeCatField st) acc).2 = acc.2 ++ t := by
  induction fds generalizing acc with
  | nil => exact ⟨[], by simp⟩
  | cons fd rest ih =>
    rw [List.foldl_cons]
    obtain ⟨t, ht⟩ := ih (imputeCatField st acc fd)
    unfold imputeCatField at ht ⊢
    by_cases h : pyGetIsNone acc.1 fd.1 = true
    · simp only [h, if_true] at ht ⊢
      exact ⟨(catFallback st fd.1 fd.2).2 :: t, by rw [ht]; simp⟩
    · simp only [h] at ht ⊢
      exact ⟨t, ht⟩

/-! ## Claim C4: imputation is idempotent on complete vectors -/

/-- C4: a feature vector in which every known numeric and categorical
field is present and non-null passes through `impute` unchanged, with
an empty imputation log. -/
theorem claim_C4 (st : ImputerState) (data : PyDict)
    (h : ∀ f ∈ known_fields, ∃ v, dget data f = some v ∧ v ≠ .null) :
    impute st data = .ok (data, []) := by
  have hfull : ∀ f ∈ known_fields, pyGetIsNone data f = false := by
    intro f hf
    exact (pyGetIsNone_eq_false_iff data f).mpr (h f hf)
  have hlpi : pyGetIsNone data "loan_percent_income" = false :=
    hfull "loan_percent_income" (by decide)
  have hder : deriveLPI data = .ok (data, []) := by
    unfold deriveLPI
    simp [hlpi]
  have hnum : numeric_defaults.foldl (imputeNumericField st) (data, []) =
      (data, []) := by
    refine foldl_num_skip st _ _ (fun fd hfd => ?_)
    refine hfull fd.1 ?_
    unfold known_fields
    exact List.mem_append_left _ (List.mem_map_of_mem _ hfd)
  have hcat : categorical_defaults.foldl (imputeCatField st) (data, []) =
      (data, []) := by
    refine foldl_cat_skip st _ _ (fun fd hfd => ?_)
    refine hfull fd.1 ?_
    unfold known_fields
    exact List.mem_append_right _ (List.mem_map_of_mem _ hfd)
  simp [impute, hder, hnum, hcat]

/-- Witness for C4: a concrete fully populated application vector is
returned unchanged with an empty log. -/
theorem claim_C4_witness :
    impute ⟨fun _ => none, fun _ => none, fun _ => none⟩
        [("person_age", .num 30), ("person_income", .num 50000),
         ("person_emp_length", .num 24), ("loan_amnt", .num 10000),
         ("loan_int_rate", .num 10), ("loan_percent_income", .num (1/5)),
         ("cb_person_cred_hist_length", .num 5),
         ("home_ownership", .str "RENT"), ("loan_intent", .str "PERSONAL"),
         ("loan_grade", .str "C"), ("default_on_file", .str "N")] =
      .ok ([("person_age", .num 30), ("person_income", .num 50000),
         ("person_emp_length", .num 24), ("loan_amnt", .num 10000),
         ("loan_int_rate", .num 10), ("loan_percent_income", .num (1/5)),
         ("cb_person_cred_hist_length", .num 5),
         ("home_ownership", .str "RENT"), ("loan_intent", .str "PERSONAL"),
         ("loan_grade", .str "C"), ("default_on_file", .str "N")], []) := by
  refine claim_C4 _ _ (fun f hf => ?_)
  fin_cases hf <;> exact ⟨_, rfl, by decide⟩

/-! ## Claim C5: loan-to-income derivation and its divide-by-zero guard -/

lemma numeric_defaults_split :
    numeric_defaults =
      [("person_age", (35 : ℚ)), ("person_income", 50000),
       ("person_emp_length", 24), ("loan_amnt", 10000), ("loan_int_rate", 10)] ++
      ("loan_percent_income", (1 : ℚ)/4) :: [("cb_person_cred_hist_length", 5)] := rfl

lemma impute_log_mem (st : ImputerState) (acc : PyDict × List String)
    (s : String) (hs : s ∈ acc.2) :
    s ∈ (categorical_defaults.foldl (imputeCatField st)
      (numeric_defaults.foldl (imputeNumericField st) acc)).2 := by
  obtain ⟨t, ht⟩ := foldl_num_snd st numeric_defaults acc
  obtain ⟨t', ht'⟩ := foldl_cat_snd st categorical_defaults
    (numeric_defaults.foldl (imputeNumericField st) acc)
  rw [ht', ht]
  simp [hs]

lemma impute_lpi_of_set (st : ImputerState) (acc : PyDict × List String)
    (v : ℚ) (hv : dget acc.1 "loan_percent_income" = some (.num v)) :
    dget (categorical_defaults.foldl (imputeCatField st)
      (numeric_defaults.foldl (imputeNumericField st) acc)).1
      "loan_percent_income" = some (.num v) := by
  rw [numeric_defaults_split, List.foldl_append, List.foldl_cons]
  have hpre : dget ([("person_age", (35 : ℚ)), ("person_income", 50000),
      ("person_emp_length", 24), ("loan_amnt", 10000),
      ("loan_int_rate", 10)].foldl (imputeNumericField st) acc).1
      "loan_percent_income" = some (.num v) := by
    rw [foldl_num_dget st _ acc _ (by decide)]
    exact hv
  have hskip := imputeNumericField_skip st _
    ("loan_percent_income", (1 : ℚ)/4) (pyGetIsNone_of_num _ _ _ hpre)
  rw [hskip]
  rw [foldl_cat_dget st _ _ _ (by decide), foldl_num_dget st _ _ _ (by decide)]
  exact hpre

lemma impute_lpi_of_missing (st : ImputerState) (acc : PyDict × List String)
    (hmiss : pyGetIsNone acc.1 "loan_percent_income" = true) :
    dget (categorical_defaults.foldl (imputeCatField st)
        (numeric_defaults.foldl (imputeNumericField st) acc)).1
        "loan_percent_income" =
      some (.num (numFallback st "loan_percent_income" (1/4)).1) ∧
    (numFallback st "loan_percent_income" (1/4)).2 ∈
      (categorical_defaults.foldl (imputeCatField st)
        (numeric_defaults.foldl (imputeNumericField st) acc)).2 := by
  rw [numeric_defaults_split, List.foldl_append, List.foldl_cons]
  set accPre := ([("person_age", (35 : ℚ)), ("person_income", 50000),
      ("person_emp_length", 24), ("loan_amnt", 10000),
      ("loan_int_rate", 10)].foldl (imputeNumericField st) acc) with haccPre
  have hpre : dget accPre.1 "loan_percent_income" =
      dget acc.1 "loan_percent_income" := by
    rw [haccPre, foldl_num_dget st _ acc _ (by decide)]
  have hmiss' : pyGetIsNone accPre.1 "loan_percent_income" = true := by
    rw [pyGetIsNone_congr _ acc.1 _ hpre]
    exact hmiss
  have hstep : imputeNumericField st accPre ("loan_percent_income", (1 : ℚ)/4) =
      (dset accPre.1 "loan_percent_income"
          (.num (numFallback st "loan_percent_income" (1/4)).1),
        accPre.2 ++ [(numFallback st "loan_percent_income" (1/4)).2]) := by
    unfold imputeNumericField
    rw [if_pos hmiss']
  rw [hstep]
  constructor
  · rw [foldl_cat_dget st _ _ _ (by decide), foldl_num_dget st _ _ _ (by decide)]
    simp [dget_dset]
  · obtain ⟨t, ht⟩ := foldl_num_snd st [("cb_person_cred_hist_length", (5 : ℚ))] _
    obtain ⟨t', ht'⟩ := foldl_cat_snd st categorical_defaults _
    rw [ht', ht]
    simp

/-- C5: with `loan_percent_income` missing, it is derived as
`loan_amnt / person_income` exactly when both are present and
`person_income` is strictly positive (and the derivation is logged);
when `person_income` is not positive (in particular 0) the derivation
step does nothing — the division is never evaluated — and the field is
instead filled by the historical/default substitution chain. -/
theorem claim_C5 (st : ImputerState) (data : PyDict)
    (hmiss : pyGetIsNone data "loan_percent_income" = true)
    (a p : ℚ)
    (ha : dget data "loan_amnt" = some (.num a))
    (hp : dget data "person_income" = some (.num p)) :
    (0 < p →
      deriveLPI data =
        .ok (dset data "loan_percent_income" (.num (a / p)), [derivedMsg]) ∧
      ∃ d log, impute st data = .ok (d, log) ∧
        dget d "loan_percent_income" = some (.num (a / p)) ∧
        derivedMsg ∈ log) ∧
    (¬ 0 < p → deriveLPI data = .ok (data, [])) ∧
    (p = 0 →
      ∃ d log, impute st data = .ok (d, log) ∧
        dget d "loan_percent_income" =
          some (.num (numFallback st "loan_percent_income" (1/4)).1) ∧
        (numFallback st "loan_percent_income" (1/4)).2 ∈ log) := by
  have hla : pyGetIsNone data "loan_amnt" = false :=
    pyGetIsNone_of_num _ _ _ ha
  have hpi : pyGetIsNone data "person_income" = false :=
    pyGetIsNone_of_num _ _ _ hp
  refine ⟨?_, ?_, ?_⟩
  · intro h0
    have hder : deriveLPI data =
        .ok (dset data "loan_percent_income" (.num (a / p)), [derivedMsg]) := by
      unfold deriveLPI
      simp [hmiss, hla, hpi, hp, ha, h0]
    refine ⟨hder,
      (categorical_defaults.foldl (imputeCatField st)
        (numeric_defaults.foldl (imputeNumericField st)
          (dset data "loan_percent_income" (.num (a / p)), [derivedMsg]))).1,
      (categorical_defaults.foldl (imputeCatField st)
        (numeric_defaults.foldl (imputeNumericField st)
          (dset data "loan_percent_income" (.num (a / p)), [derivedMsg]))).2,
      ?_, ?_, ?_⟩
    · simp [impute, hder]
    · exact impute_lpi_of_set st _ (a / p) (by simp [dget_dset])
    · exact impute_log_mem st _ _ (by simp)
  · intro h0
    unfold deriveLPI
    simp [hmiss, hla, hpi, hp, h0]
  · intro hp0
    subst hp0
    have hder : deriveLPI data = .ok (data, []) := by
      unfold deriveLPI
      simp [hmiss, hla, hpi, hp]
    obtain ⟨hd, hl⟩ := impute_lpi_of_missing st (data, []) hmiss
    refine ⟨_, _, ?_, hd, hl⟩
    simp [impute, hder]

/-- Witness for C5: the raw input `{person_income: 80000, loan_amnt:
20000}` derives `loan_percent_income = 0.25` and logs the derivation
(with no reference statistics loaded). -/
theorem claim_C5_witness :
    ∃ d log,
      impute ⟨fun _ => none, fun _ => none, fun _ => none⟩
        [("person_income", .num 80000), ("loan_amnt", .num 20000)] =
          .ok (d, log) ∧
      dget d "loan_percent_income" = some (.num (1/4)) ∧
      derivedMsg ∈ log := by
  have h := (claim_C5 ⟨fun _ => none, fun _ => none, fun _ => none⟩
      [("person_income", .num 80000), ("loan_amnt", .num 20000)]
      (by decide) 20000 80000 (by decide) (by decide)).1 (by norm_num)
  obtain ⟨-, d, log, h1, h2, h3⟩ := h
  refine ⟨d, log, h1, ?_, h3⟩
  rw [h2]
  norm_num

/-! ## Claim C2: the impute → encode → fill pipeline fixes the schema -/

lemma dget_pairs_map (V : String → PyVal) (l : List String) (f : String)
    (hf : f ∈ l) : dget (l.map fun g => (g, V g)) f = some (V f) := by
  induction l with
  | nil => cases hf
  | cons g gs ih =>
    by_cases hg : g = f
    · subst hg
      simp [dget]
    · simp only [List.mem_cons] at hf
      rcases hf with hf | hf


      · exact absurd hf.symm hg
      · simp only [List.map_cons, dget, hg, if_false, ite_false, reduceIte]
        exact ih hf

lemma dget_pairs_map_not_mem (V : String → PyVal) (l : List String)
    (f : String) (hf : f ∉ l) :
    dget (l.map fun g => (g, V g)) f = none := by
  induction l with
  | nil => rfl
  | cons g gs ih =>
    simp only [List.mem_cons, not_or] at hf
    simp only [List.map_cons, dget]
    rw [if_neg (fun h => hf.1 h.symm)]
    exact ih hf.2

lemma foldl_dset_fresh (V : String → PyVal) (l : List String) :
    ∀ acc : PyDict, l.Nodup → (∀ f ∈ l, dget acc f = none) →
      l.foldl (fun a f => dset a f (V f)) acc =
        acc ++ l.map fun f => (f, V f) := by
  induction l with
  | nil => intro acc _ _; simp
  | cons f fs ih =>
    intro acc hnd hfresh
    rw [List.foldl_cons, dset_of_fresh acc f (V f) (hfresh f (by simp))]
    rw [ih _ hnd.of_cons ?hrest]
    · simp
    case hrest =>
      intro g hg
      rw [dget_append_of_none _ _ _ (hfresh g (List.mem_cons_of_mem _ hg))]
      have hfg : f ≠ g := fun h => (List.nodup_cons.mp hnd).1 (h ▸ hg)
      simp [dget, hfg]

lemma dkeys_pairs_map (V : String → PyVal) (l : List String) :
    dkeys (l.map fun f => (f, V f)) = l := by
  induction l with
  | nil => rfl
  | cons f fs ih =>
    simp only [dkeys, List.map_cons, List.map_map] at ih ⊢
    rw [ih]

lemma validate_and_fill_eq_map (expected : List String) (mapped : PyDict)
    (hnd : expected.Nodup) :
    validate_and_fill expected mapped =
      expected.map fun f => (f, (dget mapped f).getD (.num 0)) := by
  unfold validate_and_fill
  rw [foldl_dset_fresh _ _ [] hnd (fun f _ => rfl)]
  simp

lemma deriveLPI_total (data : PyDict)
    (hla : numericOk data "loan_amnt") (hpi : numericOk data "person_income") :
    ∃ r, deriveLPI data = .ok r := by
  unfold deriveLPI
  by_cases h1 : pyGetIsNone data "loan_percent_income" = true
  case neg => exact ⟨(data, []), by simp [h1]⟩
  cases hv : dget data "person_income" with
  | none =>
    have hB : pyGetIsNone data "person_income" = true := by
      unfold pyGetIsNone; rw [hv]
    exact ⟨(data, []), by simp [h1, hB]⟩
  | some v =>
    rcases hpi v hv with hnull | ⟨q, rfl⟩
    · subst hnull
      have hB : pyGetIsNone data "person_income" = true := by
        unfold pyGetIsNone; rw [hv]
      exact ⟨(data, []), by simp [h1, hB]⟩
    · have hB : pyGetIsNone data "person_income" = false :=
        pyGetIsNone_of_num _ _ _ hv
      by_cases hA : pyGetIsNone data "loan_amnt" = true
      · exact ⟨(data, []), by simp [h1, hA]⟩
      · have hA' : pyGetIsNone data "loan_amnt" = false := by
          simpa using hA
        by_cases hq : 0 < q
        · cases hw : dget data "loan_amnt" with
          | none =>
            exfalso
            unfold pyGetIsNone at hA'
            rw [hw] at hA'
            simp at hA'
          | some w =>
            rcases hla w hw with hnull | ⟨r, rfl⟩
            · exfalso
              unfold pyGetIsNone at hA'
              rw [hw, hnull] at hA'
              simp at hA'
            · exact ⟨(dset data "loan_percent_income" (.num (r / q)),
                [derivedMsg]), by simp [h1, hA', hB, hv, hq, hw]⟩
        · exact ⟨(data, []), by simp [h1, hA', hB, hv, hq]⟩

/-- C2: for every raw input (empty included), the impute → encode →
fill pipeline yields a row whose keys are exactly the bundle's
expected columns in their original order, with the encoded value kept
where the encoding produced one (`.getD` of the lookup), 0 substituted
for every expected column the encoding did not produce, and every
encoded key outside the expected columns dropped. -/
theorem claim_C2 (st : ImputerState) (expected : List String)
    (hnd : expected.Nodup) (raw : PyDict)
    (hla : numericOk raw "loan_amnt") (hpi : numericOk raw "person_income") :
    ∃ d log, impute st raw = .ok (d, log) ∧
      dkeys (validate_and_fill expected (map_to_model_features d)) = expected ∧
      (∀ f ∈ expected,
        dget (validate_and_fill expected (map_to_model_features d)) f =
          some ((dget (map_to_model_features d) f).getD (.num 0))) ∧
      (∀ k, k ∉ expected →
        dget (validate_and_fill expected (map_to_model_features d)) k = none) := by
  obtain ⟨r, hr⟩ := deriveLPI_total raw hla hpi
  refine ⟨(categorical_defaults.foldl (imputeCatField st)
      (numeric_defaults.foldl (imputeNumericField st) r)).1,
    (categorical_defaults.foldl (imputeCatField st)
      (numeric_defaults.foldl (imputeNumericField st) r)).2, ?_, ?_, ?_, ?_⟩
  · simp [impute, hr]
  · rw [validate_and_fill_eq_map _ _ hnd]
    exact dkeys_pairs_map _ expected
  · intro f hf
    rw [validate_and_fill_eq_map _ _ hnd]
    exact dget_pairs_map _ expected f hf
  · intro k hk
    rw [validate_and_fill_eq_map _ _ hnd]
    exact dget_pairs_map_not_mem _ expected k hk

/-- Witness for C2: the entirely empty raw input, against a concrete
expected-column list, still yields a row with exactly those keys. -/
theorem claim_C2_witness :
    ∃ d log,
      impute ⟨fun _ => none, fun _ => none, fun _ => none⟩ [] = .ok (d, log) ∧
      dkeys (validate_and_fill
          ["person_age", "person_home_ownership_RENT", "bogus_col"]
          (map_to_model_features d)) =
        ["person_age", "person_home_ownership_RENT", "bogus_col"] := by
  obtain ⟨d, log, h1, h2, -, -⟩ :=
    claim_C2 ⟨fun _ => none, fun _ => none, fun _ => none⟩
      ["person_age", "person_home_ownership_RENT", "bogus_col"] (by decide)
      [] (by intro v h; simp [dget] at h) (by intro v h; simp [dget] at h)
  exact ⟨d, log, h1, h2⟩

end CreditRisk
